import Mathlib

/-!
# Verification of the Stock_Agent research-digest scheduler

Shallow embedding of `scheduler.py` (and the `send-now` endpoints of
`app.py`).  External effects are modelled explicitly:

* the generative provider (`call_gemini` and its wrappers `run_research`,
  `get_news_summary`, `get_portfolio_overview`, `get_portfolio_risk`,
  `get_report_footer`) is an oracle `GenEnv`; a `none` outcome models the
  call raising an exception, `some s` models it returning text `s`
  (Python treats the empty string as falsy, which the pipeline checks
  with `if content:`);
* every issued generation call is recorded as a `GenEvent` in a trace;
* an attempted delivery (`send_email_to`) is recorded as a `Dispatch`
  carrying the recipient, the subject, and the `Digest` (the exact
  arguments the code passes to `build_html_email`);
* `sys.exit(n)` becomes the `exitCode` field of `RunOut`.

`datetime`-derived strings are passed in as parameters.
-/

namespace StockAgent

/-- The two research kinds of `scheduler.py` (`"stock"` / `"industry"`). -/
inductive RKind where
  | stock : RKind
  | industry : RKind
deriving DecidableEq, Repr

/-- A research unit: a (kind, target-name) pair; the keys of `report_map`. -/
abbrev RUnit := RKind × String

/-- One record of `users.json` as consumed by `scheduler.py` / `app.py`. -/
structure Subscriber where
  id : String
  name : String
  email : String
  stocks : List String
  industries : List String
  active : Bool
deriving DecidableEq, Repr

/-- Oracle for the generative provider.  Each field models one of the
wrapper functions of `scheduler.py`; `none` means the call raised. -/
structure GenEnv where
  research : RKind → String → Option String
  news : Option String
  overview : List String → List String → Option String
  risk : List String → List String → Option String
  footer : List String → List String → Option String

/-- Generation calls issued during a run, in order. -/
inductive GenEvent where
  | research (kind : RKind) (target : String) : GenEvent
  | news : GenEvent
  | overview (stocks industries : List String) : GenEvent
  | risk (stocks industries : List String) : GenEvent
  | footer (stocks industries : List String) : GenEvent
deriving DecidableEq, Repr

/-- Fallback substituted when `get_news_summary` raises (scheduler.py:436/524). -/
def newsFallback : String := "- 뉴스 요약을 불러오지 못했습니다."

/-- Fallback substituted when `get_portfolio_overview` raises (scheduler.py:463/565). -/
def overviewFallback : String := "- 포트폴리오 요약을 불러오지 못했습니다."

/-- Fallback substituted when `get_portfolio_risk` raises (scheduler.py:472/572). -/
def riskFallback : String := "- 리스크 정보를 불러오지 못했습니다."

/-- Fallback substituted when `get_report_footer` raises (scheduler.py:481/579). -/
def footerFallback : String := "- 분석을 불러오지 못했습니다."

/-- Python `dict` assignment `m[u] = c`: overwrite the first binding of the
key in place, or append a fresh binding at the end. -/
def dictInsert : List (RUnit × String) → RUnit → String → List (RUnit × String)
  | [], u, c => [(u, c)]
  | p :: rest, u, c => if p.1 = u then (u, c) :: rest else p :: dictInsert rest u c

/-- Python `m[u]` / `u in m` on `report_map`: first binding of the key. -/
def lookupMap (m : List (RUnit × String)) (u : RUnit) : Option String :=
  match m.find? (fun p => decide (p.1 = u)) with
  | some p => some p.2
  | none => none

@[simp] theorem lookupMap_nil (u : RUnit) : lookupMap [] u = none := rfl

theorem lookupMap_dictInsert (m : List (RUnit × String)) (u : RUnit) (c : String)
    (x : RUnit) :
    lookupMap (dictInsert m u c) x = if x = u then some c else lookupMap m x := by
  induction m with
  | nil =>
    by_cases hx : x = u
    · subst hx; simp [dictInsert, lookupMap, List.find?]
    · have hux : ¬ u = x := fun h => hx h.symm
      simp [dictInsert, lookupMap, List.find?, hx, hux]
  | cons p rest ih =>
    by_cases hp : p.1 = u
    · by_cases hx : x = u
      · subst hx; simp [dictInsert, hp, lookupMap, List.find?]
      · have hpx : ¬ p.1 = x := by rw [hp]; exact fun h => hx h.symm
        have hux : ¬ u = x := fun h => hx h.symm
        simp [dictInsert, hp, lookupMap, List.find?, hx, hpx, hux]
    · by_cases hpx : p.1 = x
      · have hx : ¬ x = u := by rw [← hpx]; exact fun h => hp h
        simp [dictInsert, hp, lookupMap, List.find?, hpx, hx]
      · simp only [dictInsert, if_neg hp]
        simp only [lookupMap, List.find?, decide_eq_true_eq, hpx, decide_False]
        simpa [lookupMap] using ih

/-- A map holding a binding is not empty. -/
theorem lookupMap_ne_nil_of_lookup {m : List (RUnit × String)} {u : RUnit} {c : String}
    (h : lookupMap m u = some c) : m ≠ [] := by
  intro hm; subst hm; simp [lookupMap] at h

/-- The outcome of `run_research` as observed by the `if content:` guard
(scheduler.py:445-447 / 532-535): text is cached only when the call
returned without raising *and* produced non-empty (truthy) text. -/
def genOk (env : GenEnv) (u : RUnit) : Option String :=
  match env.research u.1 u.2 with
  | some c => if c = "" then none else some c
  | none => none

/-- One iteration of the per-unit research loop
(scheduler.py:441-450 / 529-538): always issues the generation call
(recorded in the trace), caches the text only when truthy, and swallows
a raised exception. -/
def unitStep (env : GenEnv) (acc : List GenEvent × List (RUnit × String)) (u : RUnit) :
    List GenEvent × List (RUnit × String) :=
  match env.research u.1 u.2 with
  | some c =>
      if c = "" then (acc.1 ++ [GenEvent.research u.1 u.2], acc.2)
      else (acc.1 ++ [GenEvent.research u.1 u.2], dictInsert acc.2 u c)
  | none => (acc.1 ++ [GenEvent.research u.1 u.2], acc.2)

/-- The whole per-unit research loop: trace of issued calls plus the
resulting `report_map`. -/
def runUnits (env : GenEnv) (items : List RUnit) :
    List GenEvent × List (RUnit × String) :=
  items.foldl (unitStep env) ([], [])

theorem unitStep_fst (env : GenEnv) (acc : List GenEvent × List (RUnit × String))
    (u : RUnit) : (unitStep env acc u).1 = acc.1 ++ [GenEvent.research u.1 u.2] := by
  unfold unitStep
  cases env.research u.1 u.2 with
  | none => rfl
  | some c => by_cases hc : c = "" <;> simp [hc]

theorem unitStep_snd (env : GenEnv) (acc : List GenEvent × List (RUnit × String))
    (u : RUnit) :
    (unitStep env acc u).2 = match genOk env u with
      | some c => dictInsert acc.2 u c
      | none => acc.2 := by
  unfold unitStep genOk
  cases env.research u.1 u.2 with
  | none => rfl
  | some c => by_cases hc : c = "" <;> simp [hc]

theorem foldl_unitStep_fst (env : GenEnv) (items : List RUnit)
    (acc : List GenEvent × List (RUnit × String)) :
    (items.foldl (unitStep env) acc).1
      = acc.1 ++ items.map (fun u => GenEvent.research u.1 u.2) := by
  induction items generalizing acc with
  | nil => simp
  | cons v rest ih =>
    rw [List.foldl_cons, ih, unitStep_fst]
    simp

/-- The research loop issues exactly one generation call per item, in
item order. -/
theorem runUnits_fst (env : GenEnv) (items : List RUnit) :
    (runUnits env items).1 = items.map (fun u => GenEvent.research u.1 u.2) := by
  unfold runUnits; rw [foldl_unitStep_fst]; simp

theorem foldl_unitStep_lookup (env : GenEnv) (items : List RUnit)
    (acc : List GenEvent × List (RUnit × String)) (x : RUnit) :
    lookupMap (items.foldl (unitStep env) acc).2 x
      = if x ∈ items then
          (match genOk env x with
            | some c => some c
            | none => lookupMap acc.2 x)
        else lookupMap acc.2 x := by
  induction items generalizing acc with
  | nil => simp
  | cons v rest ih =>
    rw [List.foldl_cons, ih]
    have hstep : lookupMap (unitStep env acc v).2 x
        = if x = v then
            (match genOk env x with
              | some c => some c
              | none => lookupMap acc.2 x)
          else lookupMap acc.2 x := by
      rw [unitStep_snd]
      by_cases hxv : x = v
      · subst hxv
        cases hg : genOk env x with
        | none => simp [hg]
        | some c => simp [hg, lookupMap_dictInsert]
      · cases hg : genOk env v with
        | none => simp [hxv]
        | some c => simp [lookupMap_dictInsert, hxv]
    by_cases hr : x ∈ rest
    · simp only [hr, if_true, List.mem_cons, or_true, if_true]
      cases hg : genOk env x with
      | none => simp [hg, hstep]
      | some c => simp [hg]
    · by_cases hxv : x = v
      · subst hxv
        simp [hr, hstep]
      · simp [hr, hxv, hstep]

/-- `report_map` lookup, characterised: a unit is bound exactly when it was
in the processed item list and its generation call produced truthy text. -/
theorem runUnits_lookup (env : GenEnv) (items : List RUnit) (x : RUnit) :
    lookupMap (runUnits env items).2 x
      = if x ∈ items then genOk env x else none := by
  unfold runUnits
  rw [foldl_unitStep_lookup]
  by_cases hx : x ∈ items
  · simp only [hx, if_true]
    cases hg : genOk env x <;> simp [hg]
  · simp [hx]

theorem foldl_unitStep_snd_of_none (env : GenEnv) (items : List RUnit)
    (acc : List GenEvent × List (RUnit × String))
    (h : ∀ u ∈ items, genOk env u = none) :
    (items.foldl (unitStep env) acc).2 = acc.2 := by
  induction items generalizing acc with
  | nil => rfl
  | cons v rest ih =>
    rw [List.foldl_cons, ih _ (fun u hu => h u (List.mem_cons_of_mem _ hu)),
      unitStep_snd, h v (List.mem_cons_self _ _)]

/-- If every unit's generation fails (or yields falsy text), `report_map`
stays empty. -/
theorem runUnits_snd_nil (env : GenEnv) (items : List RUnit)
    (h : ∀ u ∈ items, genOk env u = none) : (runUnits env items).2 = [] :=
  foldl_unitStep_snd_of_none env items ([], []) h

/-- The item list driven through the research loop:
`[("stock", s) for s in stocks] + [("industry", i) for i in industries]`
(scheduler.py:439 / 527). -/
def researchItems (stocks industries : List String) : List RUnit :=
  stocks.map (fun s => (RKind.stock, s)) ++ industries.map (fun i => (RKind.industry, i))

theorem mem_researchItems (stocks industries : List String) (u : RUnit) :
    u ∈ researchItems stocks industries
      ↔ (u.1 = RKind.stock ∧ u.2 ∈ stocks) ∨ (u.1 = RKind.industry ∧ u.2 ∈ industries) := by
  rcases u with ⟨k, t⟩
  cases k <;> simp [researchItems, Prod.ext_iff, eq_comm]

theorem researchItems_nodup {stocks industries : List String}
    (hs : stocks.Nodup) (hi : industries.Nodup) :
    (researchItems stocks industries).Nodup := by
  unfold researchItems
  rw [List.nodup_append]
  refine ⟨hs.map (fun a b h => ?_), hi.map (fun a b h => ?_), ?_⟩
  · exact (Prod.mk.injEq _ _ _ _ ▸ h).2
  · exact (Prod.mk.injEq _ _ _ _ ▸ h).2
  · intro x hx hy
    rcases List.mem_map.mp hx with ⟨a, _, rfl⟩
    rcases List.mem_map.mp hy with ⟨b, _, hb⟩
    exact RKind.noConfusion (Prod.mk.injEq _ _ _ _ ▸ hb).1

/-- Python `set.add`, as a duplicate-free enumeration. -/
def setInsert (l : List String) (x : String) : List String :=
  if x ∈ l then l else l ++ [x]

/-- Python `set.update(xs)` on an enumerated set. -/
def setUnion (acc : List String) (xs : List String) : List String :=
  xs.foldl setInsert acc

theorem mem_setInsert (l : List String) (x y : String) :
    y ∈ setInsert l x ↔ y ∈ l ∨ y = x := by
  unfold setInsert
  by_cases hx : x ∈ l
  · simp only [hx, if_true]
    constructor
    · exact Or.inl
    · rintro (h | rfl)
      · exact h
      · exact hx
  · simp [hx]

theorem setInsert_nodup {l : List String} (hl : l.Nodup) (x : String) :
    (setInsert l x).Nodup := by
  unfold setInsert
  by_cases hx : x ∈ l
  · simpa [hx]
  · simp [hx, List.nodup_append, hl, List.disjoint_singleton, hx]

theorem mem_setUnion (acc xs : List String) (y : String) :
    y ∈ setUnion acc xs ↔ y ∈ acc ∨ y ∈ xs := by
  induction xs generalizing acc with
  | nil => simp [setUnion]
  | cons x rest ih =>
    unfold setUnion at *
    rw [List.foldl_cons, ih, mem_setInsert]
    constructor
    · rintro ((h | rfl) | h)
      · exact Or.inl h
      · exact Or.inr (List.mem_cons_self _ _)
      · exact Or.inr (List.mem_cons_of_mem _ h)
    · rintro (h | h)
      · exact Or.inl (Or.inl h)
      · rcases List.mem_cons.mp h with rfl | h
        · exact Or.inl (Or.inr rfl)
        · exact Or.inr h

theorem setUnion_nodup {acc : List String} (hacc : acc.Nodup) (xs : List String) :
    (setUnion acc xs).Nodup := by
  induction xs generalizing acc with
  | nil => exact hacc
  | cons x rest ih =>
    unfold setUnion at *
    rw [List.foldl_cons]
    exact ih (setInsert_nodup hacc x)

/-- One rendered per-target card: an element of the `user_reports` list
(the `{"target": ..., "type": ..., "content": ...}` dicts of
scheduler.py:486/489/552/555). -/
structure Report where
  target : String
  rtype : RKind
  content : String
deriving DecidableEq, Repr

/-- The `user_reports` assembly (scheduler.py:483-489 / 549-555): the
subscriber's stocks in list order, then industries in list order, keeping
exactly the targets bound in `report_map`. -/
def composeReports (stocks industries : List String)
    (m : List (RUnit × String)) : List Report :=
  stocks.filterMap
      (fun s => (lookupMap m (RKind.stock, s)).map (fun c => ⟨s, RKind.stock, c⟩))
    ++ industries.filterMap
      (fun i => (lookupMap m (RKind.industry, i)).map (fun c => ⟨i, RKind.industry, c⟩))

@[simp] theorem composeReports_nil_map (stocks industries : List String) :
    composeReports stocks industries [] = [] := by
  simp [composeReports]

theorem composeReports_congr (stocks industries : List String)
    {m₁ m₂ : List (RUnit × String)}
    (h : ∀ u, lookupMap m₁ u = lookupMap m₂ u) :
    composeReports stocks industries m₁ = composeReports stocks industries m₂ := by
  unfold composeReports
  congr 1
  · exact List.filterMap_congr (fun s _ => by rw [h])
  · exact List.filterMap_congr (fun i _ => by rw [h])

theorem composeReports_ne_nil_stock (stocks industries : List String)
    (m : List (RUnit × String)) {s c : String}
    (hs : s ∈ stocks) (hc : lookupMap m (RKind.stock, s) = some c) :
    composeReports stocks industries m ≠ [] := by
  unfold composeReports
  intro h
  rcases List.append_eq_nil.mp h with ⟨h₁, -⟩
  have : (⟨s, RKind.stock, c⟩ : Report)
      ∈ stocks.filterMap
          (fun s => (lookupMap m (RKind.stock, s)).map (fun c => ⟨s, RKind.stock, c⟩)) :=
    List.mem_filterMap.mpr ⟨s, hs, by rw [hc]; rfl⟩
  rw [h₁] at this
  exact List.not_mem_nil _ this

/-- The exact arguments the orchestrator passes to `build_html_email`
(scheduler.py:494-495 / 583-584): per-target cards plus the four shared
section texts. -/
structure Digest where
  reports : List Report
  news : String
  overview : String
  risk : String
  footer : String
deriving DecidableEq, Repr

/-- One attempted delivery: the arguments of a `send_email_to` call. -/
structure Dispatch where
  recipient : String
  subject : String
  digest : Digest
deriving DecidableEq, Repr

/-- Observable outcome of one `main()` invocation. -/
structure RunOut where
  exitCode : Nat
  events : List GenEvent
  dispatches : List Dispatch
deriving DecidableEq, Repr

/-- The subject line (scheduler.py:492 / 581). -/
def mkSubject (name todayStr : String) (n : Nat) : String :=
  "📈 " ++ name ++ "님의 [" ++ todayStr ++ "] 리서치 (" ++ toString n ++ "건)"

/-- Single-subscriber mode (scheduler.py:416-501), from the point where the
target user has been found: empty-watchlist early exit, news, the per-unit
research loop, empty-`report_map` early exit, the three per-subscriber
shared sections with fallbacks, `user_reports` assembly, and the guarded
dispatch. -/
def singleRun (env : GenEnv) (todayStr : String) (s : Subscriber) : RunOut :=
  if s.stocks = [] ∧ s.industries = [] then ⟨0, [], []⟩
  else
    let newsText := (env.news).getD newsFallback
    let tm := runUnits env (researchItems s.stocks s.industries)
    if tm.2 = [] then ⟨0, GenEvent.news :: tm.1, []⟩
    else
      let events := GenEvent.news :: tm.1
        ++ [GenEvent.overview s.stocks s.industries,
            GenEvent.risk s.stocks s.industries,
            GenEvent.footer s.stocks s.industries]
      let ov := (env.overview s.stocks s.industries).getD overviewFallback
      let rk := (env.risk s.stocks s.industries).getD riskFallback
      let ft := (env.footer s.stocks s.industries).getD footerFallback
      let reports := composeReports s.stocks s.industries tm.2
      if reports = [] then ⟨0, events, []⟩
      else
        ⟨0, events,
          [⟨s.email, mkSubject s.name todayStr reports.length,
            ⟨reports, newsText, ov, rk, ft⟩⟩]⟩

/-- The per-subscriber tail of broadcast mode (scheduler.py:545-584):
`user_reports` assembly, skip on empty, the three per-subscriber shared
sections with fallbacks, dispatch. -/
def perUser (env : GenEnv) (todayStr newsText : String)
    (m : List (RUnit × String)) (u : Subscriber) :
    List GenEvent × Option Dispatch :=
  let reports := composeReports u.stocks u.industries m
  if reports = [] then ([], none)
  else
    let ov := (env.overview u.stocks u.industries).getD overviewFallback
    let rk := (env.risk u.stocks u.industries).getD riskFallback
    let ft := (env.footer u.stocks u.industries).getD footerFallback
    ([GenEvent.overview u.stocks u.industries,
      GenEvent.risk u.stocks u.industries,
      GenEvent.footer u.stocks u.industries],
      some ⟨u.email, mkSubject u.name todayStr reports.length,
        ⟨reports, newsText, ov, rk, ft⟩⟩)

/-- `[u for u in users if u.get("active", True)]` (scheduler.py:504). -/
def activeOf (users : List Subscriber) : List Subscriber :=
  users.filter (fun u => u.active)

/-- `all_stocks` (scheduler.py:507-510), enumerated in first-insertion order. -/
def broadcastStocks (users : List Subscriber) : List String :=
  (activeOf users).foldl (fun acc u => setUnion acc u.stocks) []

/-- `all_industries` (scheduler.py:508-511). -/
def broadcastIndustries (users : List Subscriber) : List String :=
  (activeOf users).foldl (fun acc u => setUnion acc u.industries) []

/-- The deduplicated broadcast item list (scheduler.py:527). -/
def broadcastItems (users : List Subscriber) : List RUnit :=
  researchItems (broadcastStocks users) (broadcastIndustries users)

/-- The broadcast `report_map` (scheduler.py:528-538). -/
def broadcastMap (env : GenEnv) (users : List Subscriber) : List (RUnit × String) :=
  (runUnits env (broadcastItems users)).2

/-- Broadcast mode (scheduler.py:503-587): active-subscriber filter, set
union of watchlists, empty-union early exit, news, the deduplicated
research loop, empty-`report_map` early exit, then the per-subscriber tail
for every active subscriber. -/
def broadcastRun (env : GenEnv) (todayStr : String) (users : List Subscriber) : RunOut :=
  if broadcastStocks users = [] ∧ broadcastIndustries users = [] then ⟨0, [], []⟩
  else
    let newsText := (env.news).getD newsFallback
    let tm := runUnits env (broadcastItems users)
    if tm.2 = [] then ⟨0, GenEvent.news :: tm.1, []⟩
    else
      ⟨0,
        GenEvent.news :: tm.1
          ++ ((activeOf users).map (fun u => (perUser env todayStr newsText tm.2 u).1)).flatten,
        (activeOf users).filterMap (fun u => (perUser env todayStr newsText tm.2 u).2)⟩

/-- `main()` (scheduler.py:398-587): credential check, then the argparse
`if args.user_id:` truthiness split — a user-id lookup failure is fatal,
otherwise the single-subscriber or broadcast pipeline runs. -/
def mainRun (env : GenEnv) (todayStr : String) (apiKey : Bool)
    (users : List Subscriber) (userId : Option String) : RunOut :=
  if apiKey = false then ⟨1, [], []⟩
  else
    match userId with
    | some uid =>
        if uid = "" then broadcastRun env todayStr users
        else
          match users.find? (fun u => decide (u.id = uid)) with
          | none => ⟨1, [], []⟩
          | some target => singleRun env todayStr target
    | none => broadcastRun env todayStr users

/-- `api_send_now_uid` (app.py:335-343): looks the user up by id only —
never consulting the active flag — and, when found, spawns
`scheduler.py --user-id <uid>` (returning the spawned argument vector);
`none` models the "user not found" JSON error with no spawn. -/
def api_send_now_uid (users : List Subscriber) (uid : String) : Option (List String) :=
  match users.find? (fun u => decide (u.id = uid)) with
  | none => none
  | some _ => some ["--user-id", uid]

theorem composeReports_ne_nil_industry (stocks industries : List String)
    (m : List (RUnit × String)) {i c : String}
    (hi : i ∈ industries) (hc : lookupMap m (RKind.industry, i) = some c) :
    composeReports stocks industries m ≠ [] := by
  unfold composeReports
  intro h
  rcases List.append_eq_nil.mp h with ⟨-, h₂⟩
  have : (⟨i, RKind.industry, c⟩ : Report)
      ∈ industries.filterMap
          (fun i => (lookupMap m (RKind.industry, i)).map (fun c => ⟨i, RKind.industry, c⟩)) :=
    List.mem_filterMap.mpr ⟨i, hi, by rw [hc]; rfl⟩
  rw [h₂] at this
  exact List.not_mem_nil _ this

/-- The single-subscriber `report_map`. -/
def singleMap (env : GenEnv) (s : Subscriber) : List (RUnit × String) :=
  (runUnits env (researchItems s.stocks s.industries)).2

/-- The single-subscriber `user_reports`. -/
def singleReports (env : GenEnv) (s : Subscriber) : List Report :=
  composeReports s.stocks s.industries (singleMap env s)

theorem singleRun_exitCode (env : GenEnv) (t : String) (s : Subscriber) :
    (singleRun env t s).exitCode = 0 := by
  unfold singleRun
  split
  · rfl
  · dsimp only
    split
    · rfl
    · split <;> rfl

theorem broadcastRun_exitCode (env : GenEnv) (t : String) (users : List Subscriber) :
    (broadcastRun env t users).exitCode = 0 := by
  unfold broadcastRun
  split
  · rfl
  · dsimp only
    split <;> rfl

/-- `singleRun`'s dispatches, characterised: exactly one dispatch, exactly
when the subscriber's `user_reports` list is non-empty. -/
theorem singleRun_dispatches (env : GenEnv) (t : String) (s : Subscriber) :
    (singleRun env t s).dispatches =
      if singleReports env s = [] then []
      else [⟨s.email, mkSubject s.name t (singleReports env s).length,
        ⟨singleReports env s, (env.news).getD newsFallback,
          (env.overview s.stocks s.industries).getD overviewFallback,
          (env.risk s.stocks s.industries).getD riskFallback,
          (env.footer s.stocks s.industries).getD footerFallback⟩⟩] := by
  unfold singleRun
  split
  next h =>
    rcases h with ⟨h1, h2⟩
    have hrep : singleReports env s = [] := by
      simp [singleReports, singleMap, h1, h2, researchItems, runUnits]
    rw [hrep]
    simp
  next =>
    dsimp only
    split
    next h2 =>
      have hrep : singleReports env s = [] := by
        rw [singleReports, show singleMap env s = [] from h2]
        exact composeReports_nil_map _ _
      rw [hrep]
      simp
    next h2 =>
      split
      next h3 =>
        rw [show singleReports env s = [] from h3]
        simp
      next h3 =>
        rw [if_neg (show ¬ singleReports env s = [] from h3)]
        rfl

/-- `broadcastRun`'s dispatches, characterised: the per-subscriber tail,
filtered over the active subscribers. -/
theorem broadcastRun_dispatches (env : GenEnv) (t : String) (users : List Subscriber) :
    (broadcastRun env t users).dispatches
      = (activeOf users).filterMap
          (fun u => (perUser env t ((env.news).getD newsFallback) (broadcastMap env users) u).2) := by
  unfold broadcastRun
  split
  next h =>
    rcases h with ⟨h1, h2⟩
    have hm : broadcastMap env users = [] := by
      simp [broadcastMap, broadcastItems, h1, h2, researchItems, runUnits]
    rw [hm]
    symm
    rw [List.filterMap_eq_nil_iff]
    intro u hu
    simp [perUser]
  next =>
    dsimp only
    split
    next h2 =>
      have hm : broadcastMap env users = [] := h2
      rw [hm]
      symm
      rw [List.filterMap_eq_nil_iff]
      intro u hu
      simp [perUser]
    next h2 => rfl

/-- Number of `run_research` invocations for one unit within a trace. -/
def researchCount (evs : List GenEvent) (u : RUnit) : Nat :=
  evs.countP (fun e => decide (e = GenEvent.research u.1 u.2))

theorem research_event_eq_iff (v u : RUnit) :
    GenEvent.research v.1 v.2 = GenEvent.research u.1 u.2 ↔ v = u := by
  rcases v with ⟨vk, vt⟩
  rcases u with ⟨uk, ut⟩
  simp [Prod.ext_iff]

theorem map_research_countP (items : List RUnit) (u : RUnit) :
    (items.map (fun v => GenEvent.research v.1 v.2)).countP
        (fun e => decide (e = GenEvent.research u.1 u.2))
      = items.countP (fun v => decide (v = u)) := by
  rw [List.countP_map]
  apply List.countP_congr
  intro v _
  simp only [Function.comp_apply, decide_eq_true_eq]
  exact research_event_eq_iff v u

theorem countP_news_cons (l : List GenEvent) (x : RUnit) :
    (GenEvent.news :: l).countP (fun e => decide (e = GenEvent.research x.1 x.2))
      = l.countP (fun e => decide (e = GenEvent.research x.1 x.2)) := by
  rw [List.countP_cons]
  simp

theorem countP_shared_append (l : List GenEvent) (a b : List String) (x : RUnit) :
    (l ++ [GenEvent.overview a b, GenEvent.risk a b, GenEvent.footer a b]).countP
        (fun e => decide (e = GenEvent.research x.1 x.2))
      = l.countP (fun e => decide (e = GenEvent.research x.1 x.2)) := by
  rw [List.countP_append]
  simp [List.countP_cons]

theorem countP_flatten_zero {p : GenEvent → Bool} {L : List (List GenEvent)}
    (h : ∀ l ∈ L, l.countP p = 0) : L.flatten.countP p = 0 := by
  induction L with
  | nil => rfl
  | cons a L ih =>
    rw [List.flatten_cons, List.countP_append, h a (List.mem_cons_self _ _),
      ih (fun l hl => h l (List.mem_cons_of_mem _ hl))]

theorem perUser_fst_researchCount (env : GenEnv) (t nt : String)
    (m : List (RUnit × String)) (u : Subscriber) (x : RUnit) :
    ((perUser env t nt m u).1).countP
      (fun e => decide (e = GenEvent.research x.1 x.2)) = 0 := by
  unfold perUser
  dsimp only
  split
  · rfl
  · simp [List.countP_cons]

/-- `run_research` invocation counts in single-subscriber mode: once per
occurrence of the unit in the subscriber's raw watchlist. -/
theorem singleRun_researchCount (env : GenEnv) (t : String) (s : Subscriber) (x : RUnit) :
    researchCount (singleRun env t s).events x
      = (researchItems s.stocks s.industries).countP (fun v => decide (v = x)) := by
  unfold singleRun researchCount
  split
  next h =>
    rcases h with ⟨h1, h2⟩
    simp [h1, h2, researchItems]
  next =>
    dsimp only
    split
    next =>
      rw [countP_news_cons, runUnits_fst, map_research_countP]
    next =>
      split <;>
        rw [show GenEvent.news :: (runUnits env (researchItems s.stocks s.industries)).1
              ++ [GenEvent.overview s.stocks s.industries, GenEvent.risk s.stocks s.industries,
                  GenEvent.footer s.stocks s.industries]
            = GenEvent.news :: ((runUnits env (researchItems s.stocks s.industries)).1
              ++ [GenEvent.overview s.stocks s.industries, GenEvent.risk s.stocks s.industries,
                  GenEvent.footer s.stocks s.industries]) from rfl,
          countP_news_cons, countP_shared_append, runUnits_fst, map_research_countP]

/-- `run_research` invocation counts in broadcast mode: once per occurrence
in the deduplicated item list. -/
theorem broadcastRun_researchCount (env : GenEnv) (t : String)
    (users : List Subscriber) (x : RUnit) :
    researchCount (broadcastRun env t users).events x
      = (broadcastItems users).countP (fun v => decide (v = x)) := by
  unfold broadcastRun researchCount
  split
  next h =>
    rcases h with ⟨h1, h2⟩
    simp [broadcastItems, h1, h2, researchItems]
  next =>
    dsimp only
    split
    next =>
      rw [countP_news_cons, runUnits_fst, map_research_countP]
    next =>
      rw [show GenEvent.news :: (runUnits env (broadcastItems users)).1
            ++ ((activeOf users).map (fun u =>
                (perUser env t (env.news.getD newsFallback)
                  (runUnits env (broadcastItems users)).2 u).1)).flatten
          = GenEvent.news :: ((runUnits env (broadcastItems users)).1
            ++ ((activeOf users).map (fun u =>
                (perUser env t (env.news.getD newsFallback)
                  (runUnits env (broadcastItems users)).2 u).1)).flatten) from rfl,
        countP_news_cons, List.countP_append, runUnits_fst, map_research_countP,
        countP_flatten_zero (fun l hl => by
          rcases List.mem_map.mp hl with ⟨u, -, rfl⟩
          exact perUser_fst_researchCount env t _ _ u x),
        Nat.add_zero]

theorem mem_foldl_setUnion (l : List Subscriber) (f : Subscriber → List String)
    (acc : List String) (x : String) :
    x ∈ l.foldl (fun a u => setUnion a (f u)) acc ↔ x ∈ acc ∨ ∃ u ∈ l, x ∈ f u := by
  induction l generalizing acc with
  | nil => simp
  | cons v rest ih =>
    rw [List.foldl_cons, ih, mem_setUnion]
    constructor
    · rintro ((h | h) | ⟨u, hu, hx⟩)
      · exact Or.inl h
      · exact Or.inr ⟨v, List.mem_cons_self _ _, h⟩
      · exact Or.inr ⟨u, List.mem_cons_of_mem _ hu, hx⟩
    · rintro (h | ⟨u, hu, hx⟩)
      · exact Or.inl (Or.inl h)
      · rcases List.mem_cons.mp hu with rfl | hu
        · exact Or.inl (Or.inr hx)
        · exact Or.inr ⟨u, hu, hx⟩

theorem nodup_foldl_setUnion (l : List Subscriber) (f : Subscriber → List String)
    {acc : List String} (hacc : acc.Nodup) :
    (l.foldl (fun a u => setUnion a (f u)) acc).Nodup := by
  induction l generalizing acc with
  | nil => exact hacc
  | cons v rest ih => exact ih (setUnion_nodup hacc _)

theorem mem_broadcastStocks (users : List Subscriber) (x : String) :
    x ∈ broadcastStocks users ↔ ∃ u ∈ activeOf users, x ∈ u.stocks := by
  unfold broadcastStocks
  rw [mem_foldl_setUnion]
  simp

theorem mem_broadcastIndustries (users : List Subscriber) (x : String) :
    x ∈ broadcastIndustries users ↔ ∃ u ∈ activeOf users, x ∈ u.industries := by
  unfold broadcastIndustries
  rw [mem_foldl_setUnion]
  simp

/-- The broadcast item list holds exactly the units referenced by some
active subscriber's watchlist. -/
theorem mem_broadcastItems (users : List Subscriber) (u : RUnit) :
    u ∈ broadcastItems users
      ↔ ∃ s ∈ activeOf users, u ∈ researchItems s.stocks s.industries := by
  unfold broadcastItems
  rw [mem_researchItems]
  constructor
  · rintro (⟨hk, hm⟩ | ⟨hk, hm⟩)
    · rcases (mem_broadcastStocks users u.2).mp hm with ⟨s, hs, hx⟩
      exact ⟨s, hs, (mem_researchItems _ _ _).mpr (Or.inl ⟨hk, hx⟩)⟩
    · rcases (mem_broadcastIndustries users u.2).mp hm with ⟨s, hs, hx⟩
      exact ⟨s, hs, (mem_researchItems _ _ _).mpr (Or.inr ⟨hk, hx⟩)⟩
  · rintro ⟨s, hs, hmem⟩
    rcases (mem_researchItems _ _ _).mp hmem with ⟨hk, hm⟩ | ⟨hk, hm⟩
    · exact Or.inl ⟨hk, (mem_broadcastStocks users u.2).mpr ⟨s, hs, hm⟩⟩
    · exact Or.inr ⟨hk, (mem_broadcastIndustries users u.2).mpr ⟨s, hs, hm⟩⟩

/-- The broadcast item list is duplicate-free: the set union deduplicates. -/
theorem broadcastItems_nodup (users : List Subscriber) :
    (broadcastItems users).Nodup :=
  researchItems_nodup (nodup_foldl_setUnion _ _ List.nodup_nil)
    (nodup_foldl_setUnion _ _ List.nodup_nil)

theorem countP_eq_ite_of_nodup {l : List RUnit} (hl : l.Nodup) (x : RUnit) :
    l.countP (fun v => decide (v = x)) = if x ∈ l then 1 else 0 := by
  induction l with
  | nil => simp
  | cons a l ih =>
    rcases List.nodup_cons.mp hl with ⟨ha, hl'⟩
    rw [List.countP_cons, ih hl']
    by_cases hax : a = x
    · subst hax
      simp [ha]
    · have hxa : ¬ x = a := fun h => hax h.symm
      simp [hax, hxa, List.mem_cons]

/-- Split at the first occurrence of `pat`: the characters before it and
the characters after it (`none` when `pat`, assumed non-empty, does not
occur). -/
def splitAtPat (pat : List Char) : List Char → Option (List Char × List Char)
  | [] => none
  | c :: rest =>
    if pat.isPrefixOf (c :: rest) then some ([], (c :: rest).drop pat.length)
    else
      match splitAtPat pat rest with
      | some (g, r) => some (c :: g, r)
      | none => none

/-- The non-greedy group-and-close search of `(.+?)close`: the shortest
non-empty group such that `close` follows it, with the remainder after
`close`. -/
def findClose (pat : List Char) : List Char → Option (List Char × List Char)
  | [] => none
  | c :: rest =>
    match splitAtPat pat rest with
    | some (g, r) => some (c :: g, r)
    | none => none

/-- Scanner for `re.sub(open ++ "(.+?)" ++ close, pre ++ group ++ post, s)`
with literal non-empty `open`/`close`: leftmost match first, shortest
(non-greedy) group, replacement never rescanned, scanning resumes after the
match.  The fuel argument only bounds the recursion; each step consumes at
least one character, so `s.length` fuel never runs out. -/
def subPatAux (openP closeP pre post : List Char) : Nat → List Char → List Char
  | _, [] => []
  | 0, s => s
  | fuel + 1, c :: rest =>
    if openP.isPrefixOf (c :: rest) then
      match findClose closeP ((c :: rest).drop openP.length) with
      | some (g, r) => pre ++ g ++ post ++ subPatAux openP closeP pre post fuel r
      | none => c :: subPatAux openP closeP pre post fuel rest
    else c :: subPatAux openP closeP pre post fuel rest

/-- One `re.sub` pass of `inline` (scheduler.py:222-224). -/
def subPat (openP closeP pre post : List Char) (s : List Char) : List Char :=
  subPatAux openP closeP pre post s.length s

/-- The opening `<code>` tag of `inline` (scheduler.py:224). -/
def codeOpenTag : String :=
  "<code style='background:#f4f4f4;padding:1px 4px;border-radius:3px'>"

/-- `inline` (scheduler.py:221-225) on the character list of one line:
bold (`**…**`), then italic (`*…*`), then code-span, each one non-greedy
substitution pass. -/
def inlineL (s : List Char) : List Char :=
  let s1 := subPat ['*', '*'] ['*', '*'] "<strong>".data "</strong>".data s
  let s2 := subPat ['*'] ['*'] "<em>".data "</em>".data s1
  subPat ['`'] ['`'] codeOpenTag.data "</code>".data s2

/-- `inline` (scheduler.py:221-225). -/
def inline (s : String) : String :=
  String.mk (inlineL s.data)

/-- Python `text.split("\n")`: split at every newline, keeping empty
pieces (one more piece than separators; `[""]` on empty input). -/
def pySplitNl : List Char → List (List Char)
  | [] => [[]]
  | c :: rest =>
    let r := pySplitNl rest
    if c = '\n' then [] :: r
    else
      match r with
      | [] => [[c]]
      | l :: ls => (c :: l) :: ls

/-- Python `str.strip()`: drop leading and trailing whitespace. -/
def pyStrip (l : List Char) : List Char :=
  ((l.dropWhile Char.isWhitespace).reverse.dropWhile Char.isWhitespace).reverse

/-- The renderer's list state: the `in_ul` / `in_ol` flags of `md_to_html`
plus the accumulated `out` lines. -/
structure MdState where
  out : List String
  in_ul : Bool
  in_ol : Bool
deriving DecidableEq, Repr

/-- `close_lists` (scheduler.py:232-239). -/
def close_lists (st : MdState) : MdState :=
  let st1 := if st.in_ul then { st with out := st.out ++ ["</ul>"], in_ul := false } else st
  if st1.in_ol then { st1 with out := st1.out ++ ["</ol>"], in_ol := false } else st1

/-- `re.match(r"^[-*] ", line)` (scheduler.py:258). -/
def isUlLine (line : List Char) : Bool :=
  "- ".data.isPrefixOf line || "* ".data.isPrefixOf line

/-- `re.match(r"^\d+\. ", line)` (scheduler.py:266): a maximal non-empty
digit prefix followed by a dot and a space (ASCII digits). -/
def isOlLine (line : List Char) : Bool :=
  let ds := line.takeWhile Char.isDigit
  decide (ds ≠ []) && ['.', ' '].isPrefixOf (line.drop ds.length)

/-- `re.sub(r"^\d+\. ", "", line)` (scheduler.py:273). -/
def olStrip (line : List Char) : List Char :=
  if isOlLine line then (line.drop (line.takeWhile Char.isDigit).length).drop 2
  else line

/-- Style strings of `md_to_html` (scheduler.py:244-280). -/
def h4Open : String :=
  "<h4 style=\"color:#555;font-size:13px;font-weight:700;margin:12px 0 3px\">"

def h3Open : String :=
  "<h3 style=\"color:#1a73e8;font-size:14px;font-weight:700;margin:14px 0 5px;padding-left:8px;border-left:3px solid #1a73e8\">"

def h2Open : String :=
  "<h2 style=\"color:#0b3d91;font-size:16px;margin:16px 0 8px\">"

def hrTag : String :=
  "<hr style=\"border:none;border-top:1px solid #eee;margin:10px 0\">"

def ulOpen : String :=
  "<ul style=\"margin:4px 0;padding-left:18px;line-height:1.7\">"

def olOpen : String :=
  "<ol style=\"margin:4px 0;padding-left:18px;line-height:1.7\">"

def pOpen : String :=
  "<p style=\"margin:4px 0;line-height:1.7\">"

/-- One iteration of the `for line in lines` dispatch of `md_to_html`
(scheduler.py:241-280). -/
def procLine (st : MdState) (line : List Char) : MdState :=
  if "### ".data.isPrefixOf line then
    let st := close_lists st
    { st with out := st.out ++ [h4Open ++ String.mk (inlineL (line.drop 4)) ++ "</h4>"] }
  else if "## ".data.isPrefixOf line then
    let st := close_lists st
    { st with out := st.out ++ [h3Open ++ String.mk (inlineL (line.drop 3)) ++ "</h3>"] }
  else if "# ".data.isPrefixOf line then
    let st := close_lists st
    { st with out := st.out ++ [h2Open ++ String.mk (inlineL (line.drop 2)) ++ "</h2>"] }
  else if pyStrip line = "---".data ∨ pyStrip line = "***".data ∨ pyStrip line = "___".data then
    let st := close_lists st
    { st with out := st.out ++ [hrTag] }
  else if isUlLine line then
    let st := if st.in_ol then { st with out := st.out ++ ["</ol>"], in_ol := false } else st
    let st := if st.in_ul then st else { st with out := st.out ++ [ulOpen], in_ul := true }
    { st with out := st.out ++ ["<li>" ++ String.mk (inlineL (line.drop 2)) ++ "</li>"] }
  else if isOlLine line then
    let st := if st.in_ul then { st with out := st.out ++ ["</ul>"], in_ul := false } else st
    let st := if st.in_ol then st else { st with out := st.out ++ [olOpen], in_ol := true }
    { st with out := st.out ++ ["<li>" ++ String.mk (inlineL (olStrip line)) ++ "</li>"] }
  else if pyStrip line = [] then
    let st := close_lists st
    { st with out := st.out ++ [""] }
  else
    let st := close_lists st
    { st with out := st.out ++ [pOpen ++ String.mk (inlineL line) ++ "</p>"] }

/-- `md_to_html` (scheduler.py:219-283): split into lines, run the list
state machine over each line, close any open list at end of input, join
with newlines. -/
def md_to_html (text : String) : String :=
  let st := (pySplitNl text.data).foldl procLine ⟨[], false, false⟩
  String.intercalate "\n" (close_lists st).out

/-- Python `s.strip()` at the `String` level. -/
def pyStripS (s : String) : String :=
  String.mk (pyStrip s.data)

/-- `build_html_email` (scheduler.py:286-372): the full HTML document —
header, portfolio-overview section, risk section, news section, one card
per report, timeframe section, fixed disclaimer.  The `datetime`-derived
strings (`today_str`, `yesterday_str`, `today_short`) are parameters. -/
def build_html_email (reports : List Report)
    (news_summary portfolio_overview portfolio_risk report_footer : String)
    (today_str yesterday_str today_short : String) : String :=
  let portfolio_section :=
    "\n<div style=\"background:#fff;border-radius:10px;margin:16px 0;padding:20px;box-shadow:0 2px 8px rgba(0,0,0,.1);border-left:4px solid #1a73e8\">\n  <div style=\"font-weight:700;font-size:15px;color:#1a73e8;margin-bottom:12px\">📌 오늘의 포트폴리오 요약</div>\n  "
      ++ md_to_html (pyStripS portfolio_overview) ++ "\n</div>"
  let risk_section :=
    "\n<div style=\"background:#fff8e1;border-radius:10px;margin:16px 0;padding:20px;box-shadow:0 2px 8px rgba(0,0,0,.1);border-left:4px solid #f4b400\">\n  <div style=\"font-weight:700;font-size:15px;color:#b06000;margin-bottom:12px\">⚠️ 오늘의 포트폴리오 리스크</div>\n  "
      ++ md_to_html (pyStripS portfolio_risk) ++ "\n</div>"
  let news_lines :=
    String.join (((pySplitNl (pyStrip news_summary.data)).filter
        (fun l => decide (pyStrip l ≠ []))).map
      (fun l =>
        "<p style=\"margin:0 0 10px;line-height:1.7;color:#333;font-size:13px\">"
          ++ String.mk (pyStrip l) ++ "</p>"))
  let news_section :=
    "\n<div style=\"background:#fff;border-radius:10px;margin:16px 0;padding:20px;box-shadow:0 2px 8px rgba(0,0,0,.1)\">\n  <div style=\"display:flex;align-items:center;gap:8px;margin-bottom:14px\">\n    <span style=\"font-weight:700;font-size:15px;color:#0b3d91\">📰 시장 방향 & 심리</span>\n    <span style=\"font-size:12px;color:#fff;background:#0b3d91;padding:2px 8px;border-radius:10px\">"
      ++ yesterday_str ++ " ~ " ++ today_short ++ "</span>\n  </div>\n  "
      ++ news_lines ++ "\n</div>"
  let cards :=
    String.join (reports.map (fun r =>
      let icon := if r.rtype = RKind.stock then "📌" else "🏭"
      let label := if r.rtype = RKind.stock then "종목" else "산업"
      let label_color := if r.rtype = RKind.stock then "#1a73e8" else "#34a853"
      let label_bg := if r.rtype = RKind.stock then "#e8f0fe" else "#e6f4ea"
      "\n<div style=\"background:#fff;border-radius:10px;margin:12px 0;box-shadow:0 2px 8px rgba(0,0,0,.1);overflow:hidden\">\n  <div style=\"padding:14px 20px;border-bottom:1px solid #f0f0f0;display:flex;align-items:center;gap:8px\">\n    <span style=\"background:"
        ++ label_bg ++ ";color:" ++ label_color
        ++ ";font-size:11px;padding:2px 8px;border-radius:10px;font-weight:700\">"
        ++ label ++ "</span>\n    <span style=\"font-weight:700;font-size:16px;color:#222\">"
        ++ icon ++ " " ++ r.target ++ "</span>\n  </div>\n  <div style=\"padding:14px 20px 18px\">"
        ++ md_to_html r.content ++ "</div>\n</div>"))
  let footer_section :=
    "\n<div style=\"background:#fff;border-radius:10px;margin:16px 0;padding:20px;box-shadow:0 2px 8px rgba(0,0,0,.1);border-left:4px solid #34a853\">\n  <div style=\"font-weight:700;font-size:15px;color:#2d8e47;margin-bottom:12px\">⏱ 타임프레임 관점</div>\n  "
      ++ md_to_html (pyStripS report_footer) ++ "\n</div>"
  "<!DOCTYPE html>\n<html lang=\"ko\">\n<head>\n<meta charset=\"UTF-8\">\n<meta name=\"viewport\" content=\"width=device-width,initial-scale=1\">\n</head>\n<body style=\"font-family:'Malgun Gothic',Apple SD Gothic Neo,sans-serif;background:#f0f4f8;margin:0;padding:20px;color:#222\">\n<div style=\"max-width:680px;margin:0 auto\">\n  <div style=\"background:linear-gradient(135deg,#1a73e8,#0b3d91);color:#fff;padding:24px 28px;border-radius:12px;margin-bottom:4px\">\n    <h1 style=\"margin:0;font-size:22px\">📈 주식 리서치 에이전트</h1>\n    <p style=\"margin:6px 0 0;opacity:.85;font-size:14px\">"
    ++ today_str ++ " &nbsp;•&nbsp; " ++ toString reports.length
    ++ "개 종목/산업</p>\n  </div>\n\n  " ++ portfolio_section ++ "\n\n  " ++ risk_section
    ++ "\n\n  " ++ news_section ++ "\n\n  " ++ cards ++ "\n\n  " ++ footer_section
    ++ "\n\n  <div style=\"background:#fff8e1;padding:14px 20px;border-radius:10px;font-size:12px;color:#888;margin-top:8px;line-height:1.7\">\n    ⚠️ 본 리포트는 AI가 생성한 정보 제공용 자료이며 투자 권유가 아닙니다.\n  </div>\n</div>\n</body>\n</html>"

/-- The body string a `Dispatch` hands to the delivery boundary: the digest
rendered by `build_html_email`. -/
def dispatchBody (today_str yesterday_str today_short : String) (d : Dispatch) : String :=
  build_html_email d.digest.reports d.digest.news d.digest.overview d.digest.risk
    d.digest.footer today_str yesterday_str today_short

/-- Concrete provider oracle for witnesses: unit research fails for target
"B" and succeeds elsewhere; all four shared-context calls fail. -/
def envW : GenEnv where
  research := fun _ t => if t = "B" then none else some ("r" ++ t)
  news := none
  overview := fun _ _ => none
  risk := fun _ _ => none
  footer := fun _ _ => none

/-- Concrete provider oracle for witnesses: every call fails. -/
def env0 : GenEnv where
  research := fun _ _ => none
  news := none
  overview := fun _ _ => none
  risk := fun _ _ => none
  footer := fun _ _ => none

/-- Concrete subscriber with watchlist stocks ["A", "B"], industries ["C"]. -/
def subW : Subscriber :=
  ⟨"u1", "tester", "t@example.com", ["A", "B"], ["C"], true⟩

/-- Concrete subscriber whose watchlist lists the same stock twice. -/
def subDup : Subscriber :=
  ⟨"u2", "dup", "d@example.com", ["A", "A"], [], true⟩

/-- The dispatch `singleRun envW "d" subW` produces. -/
def dW : Dispatch :=
  ⟨"t@example.com", mkSubject "tester" "d" 2,
    ⟨[⟨"A", RKind.stock, "rA"⟩, ⟨"C", RKind.industry, "rC"⟩],
      newsFallback, overviewFallback, riskFallback, footerFallback⟩⟩

/-- **C1, counterexample.**  The claim fails as stated: in single-subscriber
mode the raw watchlist lists are iterated without deduplication
(scheduler.py:439), so a subscriber whose watchlist lists stock "A" twice
gets `run_research` invoked twice for the distinct unit ("stock", "A") in
one run — not exactly once. -/
theorem C1_dedup_counterexample :
    (RKind.stock, "A") ∈ researchItems subDup.stocks subDup.industries
      ∧ researchCount (mainRun envW "d" true [subDup] (some "u2")).events
          (RKind.stock, "A") = 2 := by
  constructor
  · decide
  · decide

/-- **C1, amended.**  In broadcast mode, `run_research` is invoked exactly
once per distinct ResearchUnit referenced by any active subscriber's
watchlist (the set union deduplicates).  In single-subscriber mode it is
invoked once per *occurrence* of the unit in the subscriber's watchlist —
hence exactly once per distinct unit only when the watchlist itself is
duplicate-free. -/
theorem C1_dedup_amended (env : GenEnv) (t : String) (users : List Subscriber)
    (s : Subscriber) (u : RUnit) :
    (researchCount (broadcastRun env t users).events u
        = if u ∈ broadcastItems users then 1 else 0)
      ∧ (u ∈ broadcastItems users
          ↔ ∃ v ∈ activeOf users, u ∈ researchItems v.stocks v.industries)
      ∧ researchCount (singleRun env t s).events u
          = (researchItems s.stocks s.industries).countP (fun v => decide (v = u)) := by
  refine ⟨?_, mem_broadcastItems users u, singleRun_researchCount env t s u⟩
  rw [broadcastRun_researchCount, countP_eq_ite_of_nodup (broadcastItems_nodup users)]

/-- **C2.**  Mode equivalence: for any subscriber S and identical provider
behaviour, single-subscriber mode for S and broadcast mode with S as the
sole active subscriber produce exactly the same dispatch list — same
recipient, same subject, same per-target cards in the same order, and the
same four shared-section texts — and hence byte-identical rendered email
bodies. -/
theorem C2_mode_equivalence (env : GenEnv) (t ty ts : String) (s : Subscriber) :
    (singleRun env t s).dispatches
        = (broadcastRun env t [{ s with active := true }]).dispatches
      ∧ (singleRun env t s).dispatches.map (dispatchBody t ty ts)
        = (broadcastRun env t [{ s with active := true }]).dispatches.map
            (dispatchBody t ty ts) := by
  have hmem : ∀ x : RUnit, x ∈ broadcastItems [{ s with active := true }]
      ↔ x ∈ researchItems s.stocks s.industries := by
    intro x
    rw [mem_broadcastItems]
    constructor
    · rintro ⟨v, hv, hx⟩
      have hv' : v = { s with active := true } := by
        simpa [activeOf] using hv
      rw [hv'] at hx
      exact hx
    · intro hx
      exact ⟨{ s with active := true }, by simp [activeOf], hx⟩
  have hlook : ∀ x, lookupMap (broadcastMap env [{ s with active := true }]) x
      = lookupMap (singleMap env s) x := by
    intro x
    rw [broadcastMap, singleMap, runUnits_lookup, runUnits_lookup]
    by_cases hx : x ∈ researchItems s.stocks s.industries
    · rw [if_pos ((hmem x).mpr hx), if_pos hx]
    · rw [if_neg (fun h => hx ((hmem x).mp h)), if_neg hx]
  have hrep : composeReports s.stocks s.industries
        (broadcastMap env [{ s with active := true }])
      = singleReports env s := by
    rw [singleReports]
    exact composeReports_congr _ _ hlook
  have hd : (singleRun env t s).dispatches
      = (broadcastRun env t [{ s with active := true }]).dispatches := by
    rw [singleRun_dispatches, broadcastRun_dispatches]
    have hact : activeOf [{ s with active := true }] = [{ s with active := true }] := by
      simp [activeOf]
    rw [hact, List.filterMap_cons]
    unfold perUser
    dsimp only
    rw [hrep]
    by_cases hre : singleReports env s = []
    · rw [if_pos hre, if_pos hre]
      rfl
    · rw [if_neg hre, if_neg hre]
      rfl
  exact ⟨hd, by rw [hd]⟩

theorem perUser_snd_eq_none (env : GenEnv) (t nt : String)
    (m : List (RUnit × String)) (s : Subscriber)
    (h : composeReports s.stocks s.industries m = []) :
    (perUser env t nt m s).2 = none := by
  unfold perUser
  dsimp only
  rw [if_pos h]

theorem perUser_snd_some_fields {env : GenEnv} {t nt : String}
    {m : List (RUnit × String)} {u : Subscriber} {d : Dispatch}
    (h : (perUser env t nt m u).2 = some d) :
    d.recipient = u.email
      ∧ d.digest.reports = composeReports u.stocks u.industries m
      ∧ d.digest.news = nt
      ∧ d.digest.overview = (env.overview u.stocks u.industries).getD overviewFallback
      ∧ d.digest.risk = (env.risk u.stocks u.industries).getD riskFallback
      ∧ d.digest.footer = (env.footer u.stocks u.industries).getD footerFallback
      ∧ ¬ composeReports u.stocks u.industries m = [] := by
  unfold perUser at h
  dsimp only at h
  by_cases hrep : composeReports u.stocks u.industries m = []
  · rw [if_pos hrep] at h
    cases h
  · rw [if_neg hrep] at h
    rcases Option.some.inj h with rfl
    exact ⟨rfl, rfl, rfl, rfl, rfl, rfl, hrep⟩

/-- **C3.**  Failure isolation in a broadcast run: if the generation call
for unit U raises, the run still completes normally (the exception is
caught; logging is an unmodelled side channel), U is absent from
`report_map`, every other unit's result is exactly what its own generation
call produced, and every active subscriber with at least one successfully
generated watchlist unit still gets a dispatch with a non-empty card
list. -/
theorem C3_failure_isolation (env : GenEnv) (t : String)
    (users : List Subscriber) (U : RUnit)
    (hU : env.research U.1 U.2 = none) :
    (broadcastRun env t users).exitCode = 0
      ∧ lookupMap (broadcastMap env users) U = none
      ∧ (∀ V : RUnit, ¬ V = U →
          lookupMap (broadcastMap env users) V
            = if V ∈ broadcastItems users then genOk env V else none)
      ∧ (∀ s ∈ users, s.active = true →
          (∃ V ∈ researchItems s.stocks s.industries, ¬ genOk env V = none) →
          ∃ d ∈ (broadcastRun env t users).dispatches,
            d.recipient = s.email ∧ ¬ d.digest.reports = []) := by
  have hgU : genOk env U = none := by
    unfold genOk
    rw [hU]
  refine ⟨broadcastRun_exitCode env t users, ?_, ?_, ?_⟩
  · rw [broadcastMap, runUnits_lookup]
    by_cases hm : U ∈ broadcastItems users
    · rw [if_pos hm, hgU]
    · rw [if_neg hm]
  · intro V _
    rw [broadcastMap, runUnits_lookup]
  · intro s hs hact hex
    rcases hex with ⟨V, hV, hVok⟩
    have hsa : s ∈ activeOf users := List.mem_filter.mpr ⟨hs, by rw [hact]⟩
    rcases Option.ne_none_iff_exists'.mp hVok with ⟨c, hc⟩
    have hVb : V ∈ broadcastItems users :=
      (mem_broadcastItems users V).mpr ⟨s, hsa, hV⟩
    have hlook : lookupMap (broadcastMap env users) V = some c := by
      rw [broadcastMap, runUnits_lookup, if_pos hVb, hc]
    have hrep : ¬ composeReports s.stocks s.industries (broadcastMap env users) = [] := by
      rcases (mem_researchItems s.stocks s.industries V).mp hV with ⟨hk, hm⟩ | ⟨hk, hm⟩
      · refine @composeReports_ne_nil_stock s.stocks s.industries _ V.2 c hm ?_
        have hVeq : V = (RKind.stock, V.2) := by
          rcases V with ⟨k, x⟩
          simp only at hk
          rw [hk]
        rw [← hVeq]
        exact hlook
      · refine @composeReports_ne_nil_industry s.stocks s.industries _ V.2 c hm ?_
        have hVeq : V = (RKind.industry, V.2) := by
          rcases V with ⟨k, x⟩
          simp only at hk
          rw [hk]
        rw [← hVeq]
        exact hlook
    rw [broadcastRun_dispatches]
    refine ⟨⟨s.email,
        mkSubject s.name t
          (composeReports s.stocks s.industries (broadcastMap env users)).length,
        ⟨composeReports s.stocks s.industries (broadcastMap env users),
          (env.news).getD newsFallback,
          (env.overview s.stocks s.industries).getD overviewFallback,
          (env.risk s.stocks s.industries).getD riskFallback,
          (env.footer s.stocks s.industries).getD footerFallback⟩⟩,
      List.mem_filterMap.mpr ⟨s, hsa, ?_⟩, rfl, hrep⟩
    unfold perUser
    dsimp only
    rw [if_neg hrep]

/-- Witness for C3 at a concrete input: with a provider that fails exactly
on target "B", unit ("stock", "B") is recorded absent in the broadcast
`report_map`. -/
theorem C3_failure_isolation_witness :
    envW.research RKind.stock "B" = none
      ∧ lookupMap (broadcastMap envW [subW]) (RKind.stock, "B") = none :=
  ⟨by decide, (C3_failure_isolation envW "d" [subW] (RKind.stock, "B") (by decide)).2.1⟩

theorem broadcastRun_dispatch_reports_ne_nil (env : GenEnv) (t : String)
    (users : List Subscriber) :
    ∀ d ∈ (broadcastRun env t users).dispatches, ¬ d.digest.reports = [] := by
  intro d hd
  rw [broadcastRun_dispatches] at hd
  rcases List.mem_filterMap.mp hd with ⟨u, -, hsome⟩
  rcases perUser_snd_some_fields hsome with ⟨-, heq, -, -, -, -, hne⟩
  rw [heq]
  exact hne

theorem singleRun_dispatch_reports_ne_nil (env : GenEnv) (t : String)
    (s : Subscriber) :
    ∀ d ∈ (singleRun env t s).dispatches, ¬ d.digest.reports = [] := by
  intro d hd
  rw [singleRun_dispatches] at hd
  by_cases h : singleReports env s = []
  · rw [if_pos h] at hd
    cases hd
  · rw [if_neg h] at hd
    rcases List.mem_singleton.mp hd with rfl
    exact h

/-- **C4.**  Skip invariant, in both modes: (a) every dispatch any
`main()` run makes carries a non-empty card list — a digest with zero
per-target cards is never dispatched; (b) the broadcast per-subscriber
tail makes no delivery call for a subscriber whose whole watchlist maps to
absent results; (c) single-subscriber mode makes no delivery call when the
subscriber's `user_reports` list is empty. -/
theorem C4_skip_invariant (env : GenEnv) (t : String) (apiKey : Bool)
    (users : List Subscriber) (userId : Option String) :
    (∀ d ∈ (mainRun env t apiKey users userId).dispatches, ¬ d.digest.reports = [])
      ∧ (∀ (nt : String) (m : List (RUnit × String)) (s : Subscriber),
          composeReports s.stocks s.industries m = [] →
          (perUser env t nt m s).2 = none)
      ∧ (∀ s : Subscriber, singleReports env s = [] →
          (singleRun env t s).dispatches = []) := by
  refine ⟨?_, fun nt m s h => perUser_snd_eq_none env t nt m s h, ?_⟩
  · intro d hd
    unfold mainRun at hd
    split at hd
    · cases hd
    · split at hd
      next uid =>
        split at hd
        · exact broadcastRun_dispatch_reports_ne_nil env t users d hd
        · split at hd
          · cases hd
          · exact singleRun_dispatch_reports_ne_nil env t _ d hd
      next =>
        exact broadcastRun_dispatch_reports_ne_nil env t users d hd
  · intro s h
    rw [singleRun_dispatches, if_pos h]

/-- Witness for C4 at a concrete input: a subscriber whose only unit fails
generation produces no dispatch in single-subscriber mode. -/
theorem C4_skip_invariant_witness :
    (singleRun env0 "d" ⟨"u1", "n", "e", ["A"], [], true⟩).dispatches = [] :=
  (C4_skip_invariant env0 "d" true [] none).2.2
    ⟨"u1", "n", "e", ["A"], [], true⟩ (by decide)

/-- **C5.**  Scenario: a subscriber with stocks ["A", "B"] and industries
["C"], where generation for "B" raises while "A" and "C" return non-empty
text, gets exactly one dispatch whose digest holds exactly the two cards
for A (stock) then C (industry), in that order, and no card for B. -/
theorem C5_scenario (env : GenEnv) (t a c id nm em : String) (act : Bool)
    (hA : env.research RKind.stock "A" = some a) (ha : ¬ a = "")
    (hB : env.research RKind.stock "B" = none)
    (hC : env.research RKind.industry "C" = some c) (hc : ¬ c = "") :
    (singleRun env t ⟨id, nm, em, ["A", "B"], ["C"], act⟩).dispatches
      = [⟨em, mkSubject nm t 2,
          ⟨[⟨"A", RKind.stock, a⟩, ⟨"C", RKind.industry, c⟩],
            (env.news).getD newsFallback,
            (env.overview ["A", "B"] ["C"]).getD overviewFallback,
            (env.risk ["A", "B"] ["C"]).getD riskFallback,
            (env.footer ["A", "B"] ["C"]).getD footerFallback⟩⟩] := by
  have hga : genOk env (RKind.stock, "A") = some a := by
    unfold genOk
    rw [hA]
    simp [ha]
  have hgb : genOk env (RKind.stock, "B") = none := by
    unfold genOk
    rw [hB]
  have hgc : genOk env (RKind.industry, "C") = some c := by
    unfold genOk
    rw [hC]
    simp [hc]
  have hlA : lookupMap (singleMap env ⟨id, nm, em, ["A", "B"], ["C"], act⟩)
      (RKind.stock, "A") = some a := by
    rw [singleMap, runUnits_lookup,
      if_pos (show (RKind.stock, "A") ∈ researchItems ["A", "B"] ["C"] by decide)]
    exact hga
  have hlB : lookupMap (singleMap env ⟨id, nm, em, ["A", "B"], ["C"], act⟩)
      (RKind.stock, "B") = none := by
    rw [singleMap, runUnits_lookup,
      if_pos (show (RKind.stock, "B") ∈ researchItems ["A", "B"] ["C"] by decide)]
    exact hgb
  have hlC : lookupMap (singleMap env ⟨id, nm, em, ["A", "B"], ["C"], act⟩)
      (RKind.industry, "C") = some c := by
    rw [singleMap, runUnits_lookup,
      if_pos (show (RKind.industry, "C") ∈ researchItems ["A", "B"] ["C"] by decide)]
    exact hgc
  have hrep : singleReports env ⟨id, nm, em, ["A", "B"], ["C"], act⟩
      = [⟨"A", RKind.stock, a⟩, ⟨"C", RKind.industry, c⟩] := by
    rw [singleReports]
    unfold composeReports
    simp [hlA, hlB, hlC]
  rw [singleRun_dispatches, hrep]
  rfl

/-- Witness for C5 at a concrete input: the provider `envW` fails exactly
on "B" and returns "rA" / "rC" for the other two targets. -/
theorem C5_scenario_witness :
    envW.research RKind.stock "B" = none
      ∧ (singleRun envW "d" ⟨"u1", "n", "e", ["A", "B"], ["C"], true⟩).dispatches
        = [⟨"e", mkSubject "n" "d" 2,
            ⟨[⟨"A", RKind.stock, "rA"⟩, ⟨"C", RKind.industry, "rC"⟩],
              (envW.news).getD newsFallback,
              (envW.overview ["A", "B"] ["C"]).getD overviewFallback,
              (envW.risk ["A", "B"] ["C"]).getD riskFallback,
              (envW.footer ["A", "B"] ["C"]).getD footerFallback⟩⟩] :=
  ⟨by decide,
    C5_scenario envW "d" "rA" "rC" "u1" "n" "e" true
      (by decide) (by decide) (by decide) (by decide) (by decide)⟩

/-- **C6.**  Exit codes: `main()` exits non-zero exactly when the API
credential is missing, or a (truthy) user id was requested and no user
record has that id; in that case no generation call has been issued.
Every other run — empty watchlists, empty `report_map`, failed deliveries
included — completes with exit code 0. -/
theorem C6_exit_codes (env : GenEnv) (t : String) (apiKey : Bool)
    (users : List Subscriber) (userId : Option String) :
    ((mainRun env t apiKey users userId).exitCode ≠ 0
        ↔ apiKey = false
          ∨ (∃ uid, userId = some uid ∧ ¬ uid = ""
              ∧ users.find? (fun u => decide (u.id = uid)) = none))
      ∧ ((mainRun env t apiKey users userId).exitCode ≠ 0
          → (mainRun env t apiKey users userId).events = []) := by
  unfold mainRun
  split
  next h =>
    simp [h]
  next h =>
    cases userId with
    | none => simp [h, broadcastRun_exitCode]
    | some uid =>
      by_cases hu : uid = ""
      · simp [hu, h, broadcastRun_exitCode]
      · cases hfind : users.find? (fun u => decide (u.id = uid)) with
        | none =>
          simp [hu, h, hfind]
          intro x hx
          simpa using List.find?_eq_none.mp hfind x hx
        | some target =>
          simp [hu, h, hfind, singleRun_exitCode]
          exact ⟨target, List.mem_of_find?_eq_some hfind,
            by simpa using List.find?_some hfind⟩

/-- Witness for C6 at a concrete input: with the credential absent the run
aborts before any generation call. -/
theorem C6_exit_codes_witness :
    (mainRun env0 "d" false [] none).events = [] :=
  (C6_exit_codes env0 "d" false [] none).2 (by decide)

set_option maxRecDepth 100000 in
/-- **C7.**  Renderer list-closing: on the four input lines
`["- a", "- b", "text", "- c"]` the renderer emits one unordered-list
element holding exactly the items a and b, closed before the paragraph for
"text", then a second, separate unordered-list element holding the single
item c, closed at end of input — not one list of three items. -/
theorem C7_renderer_list_closing :
    md_to_html (String.intercalate "\n" ["- a", "- b", "text", "- c"])
      = String.intercalate "\n"
          [ulOpen, "<li>a</li>", "<li>b</li>", "</ul>",
           pOpen ++ "text</p>", ulOpen, "<li>c</li>", "</ul>"] := by
  decide

/-- **C8.**  The renderer is deterministic: it is a pure function of the
input text alone (no hidden state, date or randomness in the embedding),
so two invocations on identical text yield byte-identical documents. -/
theorem C8_renderer_deterministic (t₁ t₂ : String) (h : t₁ = t₂) :
    md_to_html t₁ = md_to_html t₂ := by
  rw [h]

/-- Witness for C8 at a concrete input. -/
theorem C8_renderer_deterministic_witness :
    "# x\n- y" = "# x\n- y" ∧ md_to_html "# x\n- y" = md_to_html "# x\n- y" :=
  ⟨rfl, C8_renderer_deterministic "# x\n- y" "# x\n- y" rfl⟩

/-- The research loop reads only the `research` field of the oracle. -/
theorem runUnits_congr {env env2 : GenEnv} (h : env2.research = env.research)
    (items : List RUnit) : runUnits env2 items = runUnits env items := by
  unfold runUnits
  have hstep : unitStep env2 = unitStep env := by
    funext acc u
    unfold unitStep
    rw [h]
  rw [hstep]

/-- **C9.**  Shared-context failure isolation, both modes: whenever one of
the four shared-context generation calls raises, the corresponding digest
section is the fixed fallback string; and the set of dispatches — which
subscribers are composed and delivered to, and with which cards — depends
only on the unit-research outcomes, never on shared-context success, so no
shared-context failure aborts the run. -/
theorem C9_shared_fallbacks (env env2 : GenEnv) (t : String) (s : Subscriber)
    (users : List Subscriber) :
    (∀ d ∈ (singleRun env t s).dispatches,
        (env.news = none → d.digest.news = newsFallback)
          ∧ (env.overview s.stocks s.industries = none →
              d.digest.overview = overviewFallback)
          ∧ (env.risk s.stocks s.industries = none → d.digest.risk = riskFallback)
          ∧ (env.footer s.stocks s.industries = none → d.digest.footer = footerFallback))
      ∧ (∀ d ∈ (broadcastRun env t users).dispatches,
          (env.news = none → d.digest.news = newsFallback)
            ∧ ((∀ a b, env.overview a b = none) → d.digest.overview = overviewFallback)
            ∧ ((∀ a b, env.risk a b = none) → d.digest.risk = riskFallback)
            ∧ ((∀ a b, env.footer a b = none) → d.digest.footer = footerFallback))
      ∧ (env2.research = env.research →
          (singleRun env2 t s).exitCode = (singleRun env t s).exitCode
            ∧ (singleRun env2 t s).dispatches.map (fun d => (d.recipient, d.digest.reports))
              = (singleRun env t s).dispatches.map (fun d => (d.recipient, d.digest.reports))
            ∧ (broadcastRun env2 t users).exitCode = (broadcastRun env t users).exitCode
            ∧ (broadcastRun env2 t users).dispatches.map
                  (fun d => (d.recipient, d.digest.reports))
              = (broadcastRun env t users).dispatches.map
                  (fun d => (d.recipient, d.digest.reports))) := by
  refine ⟨?_, ?_, ?_⟩
  · intro d hd
    rw [singleRun_dispatches] at hd
    by_cases h : singleReports env s = []
    · rw [if_pos h] at hd
      cases hd
    · rw [if_neg h] at hd
      rcases List.mem_singleton.mp hd with rfl
      refine ⟨fun hn => ?_, fun hn => ?_, fun hn => ?_, fun hn => ?_⟩ <;>
        simp only [hn] <;> rfl
  · intro d hd
    rw [broadcastRun_dispatches] at hd
    rcases List.mem_filterMap.mp hd with ⟨u, -, hsome⟩
    rcases perUser_snd_some_fields hsome with ⟨-, -, hnews, hov, hrk, hft, -⟩
    refine ⟨fun hn => ?_, fun hn => ?_, fun hn => ?_, fun hn => ?_⟩
    · rw [hnews, hn]
      rfl
    · rw [hov, hn]
      rfl
    · rw [hrk, hn]
      rfl
    · rw [hft, hn]
      rfl
  · intro hres
    have hsm : singleMap env2 s = singleMap env s := by
      rw [singleMap, singleMap, runUnits_congr hres]
    have hsrep : singleReports env2 s = singleReports env s := by
      rw [singleReports, singleReports, hsm]
    have hbm : broadcastMap env2 users = broadcastMap env users := by
      rw [broadcastMap, broadcastMap, runUnits_congr hres]
    refine ⟨by rw [singleRun_exitCode, singleRun_exitCode], ?_,
      by rw [broadcastRun_exitCode, broadcastRun_exitCode], ?_⟩
    · rw [singleRun_dispatches, singleRun_dispatches, hsrep]
      by_cases h : singleReports env s = []
      · rw [if_pos h, if_pos h]
      · rw [if_neg h, if_neg h]
        rfl
    · rw [broadcastRun_dispatches, broadcastRun_dispatches, hbm,
        List.map_filterMap, List.map_filterMap]
      apply List.filterMap_congr
      intro u _
      unfold perUser
      dsimp only
      by_cases h : composeReports u.stocks u.industries (broadcastMap env users) = []
      · rw [if_pos h, if_pos h]
      · rw [if_neg h, if_neg h]
        rfl

/-- Witness for C9 at a concrete input: with the news call failing, the
dispatched digest's news section is the fixed fallback text. -/
theorem C9_shared_fallbacks_witness :
    envW.news = none ∧ dW.digest.news = newsFallback :=
  ⟨rfl, ((C9_shared_fallbacks envW envW "d" subW []).1 dW (by decide)).1 rfl⟩

/-- **C10.**  Single-subscriber mode never consults the active flag: when
the id lookup finds a record, the full single-subscriber pipeline runs for
it, and its outcome (trace and dispatches included) is unchanged by the
record's active flag; the dashboard's `api_send_now_uid` endpoint spawns
`scheduler.py --user-id <uid>` for any found record without checking the
flag.  Broadcast mode, by contrast, excludes an inactive subscriber
entirely: with such a record as the only subscriber, the run stops with no
generation call and no dispatch. -/
theorem C10_active_flag_ignored (env : GenEnv) (t : String)
    (users : List Subscriber) (u : Subscriber) (uid : String)
    (hfind : users.find? (fun v => decide (v.id = uid)) = some u)
    (hne : ¬ uid = "") :
    mainRun env t true users (some uid) = singleRun env t u
      ∧ (∀ b₁ b₂ : Bool, singleRun env t { u with active := b₁ }
          = singleRun env t { u with active := b₂ })
      ∧ api_send_now_uid users uid = some ["--user-id", uid]
      ∧ broadcastRun env t [{ u with active := false }] = ⟨0, [], []⟩ := by
  refine ⟨?_, ?_, ?_, ?_⟩
  · unfold mainRun
    rw [if_neg (by simp)]
    dsimp only
    rw [if_neg hne, hfind]
  · intro b₁ b₂
    rcases u with ⟨i, n, e, st, ind, a⟩
    rfl
  · unfold api_send_now_uid
    rw [hfind]
  · have hact : activeOf [{ u with active := false }] = [] := by
      simp [activeOf]
    have h1 : broadcastStocks [{ u with active := false }] = [] := by
      rw [broadcastStocks, hact]
      rfl
    have h2 : broadcastIndustries [{ u with active := false }] = [] := by
      rw [broadcastIndustries, hact]
      rfl
    unfold broadcastRun
    rw [if_pos ⟨h1, h2⟩]

/-- Witness for C10 at a concrete input: an inactive record, found by id,
is still run by the single-subscriber pipeline. -/
theorem C10_active_flag_ignored_witness :
    mainRun envW "d" true [⟨"u3", "x", "x@e", ["A"], [], false⟩] (some "u3")
      = singleRun envW "d" ⟨"u3", "x", "x@e", ["A"], [], false⟩ :=
  (C10_active_flag_ignored envW "d" [⟨"u3", "x", "x@e", ["A"], [], false⟩]
    ⟨"u3", "x", "x@e", ["A"], [], false⟩ "u3" (by decide) (by decide)).1

end StockAgent
